import Mathlib

/-
Verification of the incremental Garmin Connect CSV exporter
(src/running/garminconnect_exporter.py).

The script loads the set of Activity IDs already persisted in the CSV
file, fetches the recent activity listing, and for each listed activity
whose ID is not in that set it fetches a per-activity summary document,
normalizes the pair into an 8-column row, and finally rewrites the CSV
file with the fixed header, the new rows in fetch order, then the old
rows (prepend merge). The embedding below models the pure data flow of
that script: network calls become function arguments, the persisted
file becomes an explicit value, and Python exceptions become Except.
-/

/-- Model of a Python number as found in a parsed JSON document: an int
or a float. The float payload is modelled as a rational, which is exact
for all values exercised here. -/
inductive PyNum
  | pint (n : ℤ)
  | pfloat (q : ℚ)
deriving DecidableEq, Repr

/-- Python truthiness on numbers: an int or float is falsy exactly when
it equals zero. -/
def PyNum.falsy : PyNum → Bool
  | .pint n => n == 0
  | .pfloat q => q == 0

/-- A Python value placed in a CSV row before writing: a string, an int
or a float. The csv writer stringifies each via str(). -/
inductive Cell
  | s (v : String)
  | i (v : ℤ)
  | f (v : ℚ)
deriving DecidableEq, Repr

/-- Embed a JSON number into a row cell. -/
def Cell.ofNum : PyNum → Cell
  | .pint n => .i n
  | .pfloat q => .f q

/-- One hundred times the fraction n over d (d positive), rounded to
the nearest integer with ties to even, computed with integer
arithmetic: Int division in Lean is euclidean, which floors for a
positive divisor, and the remainder decides the direction. This models
the rounding Python round(x, 2) performs at the values this program
feeds it, which are all exactly representable. -/
def round2Of (n d : ℤ) : ℤ :=
  let c := n * 100
  let f := c / d
  let rem := c % d
  if 2 * rem < d then f
  else if d < 2 * rem then f + 1
  else if f % 2 = 0 then f else f + 1

/-- Python round(v / k, 2) for a positive integer divisor k, as in
round(act.get("distance", 0) / 1000, 2): the quotient of v by k is the
fraction v.num over v.den * k, and its rounded value is exact as a
rational with denominator 100. -/
def pyRoundDiv2 (v : ℚ) (k : ℤ) : ℚ :=
  Rat.divInt (round2Of v.num ((v.den : ℤ) * k)) 100

/-- Render the nonnegative value n over d (in lowest terms, with at
most two decimal places) the way Python str() renders the
corresponding float: always at least one digit after the point,
trailing zero dropped from two-digit fractions. -/
def renderPosND (n d : ℕ) : String :=
  let c := (n * 100) / d
  let ip := c / 100
  let fr := c % 100
  if fr = 0 then toString ip ++ ".0"
  else if fr % 10 = 0 then toString ip ++ "." ++ toString (fr / 10)
  else if fr < 10 then toString ip ++ ".0" ++ toString fr
  else toString ip ++ "." ++ toString fr

/-- Render a rational as Python str() renders the float. -/
def renderFloat (q : ℚ) : String :=
  if q.num < 0 then "-" ++ renderPosND (-q.num).toNat q.den
  else renderPosND q.num.toNat q.den

/-- str() applied by csv.writer to one cell. -/
def renderCell : Cell → String
  | .s v => v
  | .i v => toString v
  | .f v => renderFloat v

/-- str() applied to a whole row. -/
def renderRow (r : List Cell) : List String := r.map renderCell

/-- Python str.title restricted to ASCII: uppercase a letter that does
not follow a letter, lowercase one that does. -/
def pyTitleGo : Bool → List Char → List Char
  | _, [] => []
  | prevAlpha, c :: cs =>
    if c.isAlpha then
      (if prevAlpha then c.toLower else c.toUpper) :: pyTitleGo true cs
    else
      c :: pyTitleGo false cs

/-- Python str.title on a string. -/
def pyTitle (s : String) : String := String.mk (pyTitleGo false s.data)

/-- Python one-character str.replace, as in type_key.replace applied to
an underscore and a space: every occurrence of the character a becomes
b. -/
def pyReplace1 (s : String) (a b : Char) : String :=
  String.mk (s.data.map (fun c => if c = a then b else c))

/-- The fields of one upstream activity-listing entry that the script
reads. A field holds none when the JSON key is absent; the script reads
each with a .get default except activityId, read with act["activityId"],
which raises KeyError when the key is missing. typeKey stands for
act.get("activityType", \x7b\x7d).get("typeKey", "unknown"): none means
either level of the nesting was absent. -/
structure Act where
  activityId : Option ℤ
  typeKey : Option String
  startTimeLocal : Option String
  distance : Option ℚ
  duration : Option ℚ
  steps : Option ℤ
deriving DecidableEq, Repr

/-- The summaryDTO fields of one per-activity detail document that the
script reads; none means the key is absent or null (dto.get cannot tell
the two apart). -/
structure Dto where
  averageHR : Option PyNum
  averageHeartRate : Option PyNum
  totalElevationGain : Option PyNum
  elevationGain : Option PyNum
deriving DecidableEq, Repr

/-- Python `a or b` on two optional numbers: the left value when it is
present and truthy, otherwise the right operand as a whole. -/
def pyOr (a b : Option PyNum) : Option PyNum :=
  match a with
  | none => b
  | some n => if n.falsy then b else some n

/-- Line 149-150: hr_val = dto.get("averageHR") or dto.get("averageHeartRate");
hr = hr_val if hr_val is not None else "N/A". -/
def hrCell (dto : Dto) : Cell :=
  match pyOr dto.averageHR dto.averageHeartRate with
  | some v => Cell.ofNum v
  | none => Cell.s "N/A"

/-- Line 151: eg = dto.get("totalElevationGain") or dto.get("elevationGain")
or "N/A". The string "N/A" is truthy, so a falsy numeric result of the
inner or also collapses to "N/A". -/
def egCell (dto : Dto) : Cell :=
  match pyOr dto.totalElevationGain dto.elevationGain with
  | some v => if v.falsy then Cell.s "N/A" else Cell.ofNum v
  | none => Cell.s "N/A"

/-- The raw category key used for the steps gate, pre title-casing:
act.get("activityType", \x7b\x7d).get("typeKey", "unknown"). -/
def typeKeyOf (act : Act) : String := act.typeKey.getD "unknown"

/-- Line 143: steps = act.get("steps", "N/A") if type_key in
["running", "walking"] else "N/A". -/
def stepsCell (act : Act) : Cell :=
  if typeKeyOf act ∈ (["running", "walking"] : List String) then
    match act.steps with
    | some k => Cell.i k
    | none => Cell.s "N/A"
  else Cell.s "N/A"

/-- Lines 139-154: normalize one unseen activity together with its
summaryDTO into the 8-cell row appended to new_rows. aid is
str(act["activityId"]). -/
def mkRow (aid : String) (act : Act) (dto : Dto) : List Cell :=
  let type_key := typeKeyOf act
  let category := pyTitle (pyReplace1 type_key '_' ' ')
  let start := act.startTimeLocal.getD ""
  let dist := pyRoundDiv2 (act.distance.getD 0) 1000
  let dur := pyRoundDiv2 (act.duration.getD 0) 60
  [Cell.s aid, Cell.s category, Cell.s start, Cell.f dist,
   stepsCell act, Cell.f dur, hrCell dto, egCell dto]

/-- Errors a run can surface: a KeyError from a missing activityId (or
a missing Activity ID column while loading), or an HTTP error raised by
raise_for_status on the per-activity detail call. -/
inductive Err
  | keyError
  | httpError
deriving DecidableEq, Repr

/-- The persisted CSV file as a list of rows of strings, including the
header row; none when the file does not exist. All cells this program
writes are free of commas and quotes, so rows of plain strings model
the byte content faithfully. -/
abbrev Csv := List (List String)

deriving instance DecidableEq for Except

/-- Lines 117-122: seen = set(); for row in csv.DictReader(f):
seen.add(row["Activity ID"]). DictReader takes the first line as the
header; row["Activity ID"] raises KeyError when that column name is
absent from the header and a data row exists. Modelled as the list of
values in the Activity ID column, in file order. -/
def loadSeen : Option Csv → Except Err (List String)
  | none => Except.ok []
  | some [] => Except.ok []
  | some (h :: body) =>
    match h.findIdx? (· == "Activity ID") with
    | some i => Except.ok (body.map (fun r => r.getD i ""))
    | none => if body.isEmpty then Except.ok [] else Except.error Err.keyError

/-- Lines 134-154: the per-activity loop. Each iteration takes
str(act["activityId"]) (KeyError when absent), skips the activity when
the id is in seen, otherwise awaits the detail call (modelled by the
detail function; none means the call raised) and accumulates the
normalized row. The seen set is never extended inside the loop. -/
def processLoop (seen : List String) (detail : String → Option Dto) :
    List Act → Except Err (List (List Cell))
  | [] => Except.ok []
  | act :: rest =>
    match act.activityId with
    | none => Except.error Err.keyError
    | some n =>
      let aid := toString n
      if aid ∈ seen then processLoop seen detail rest
      else
        match detail aid with
        | none => Except.error Err.httpError
        | some dto =>
          match processLoop seen detail rest with
          | Except.error e => Except.error e
          | Except.ok rows => Except.ok (mkRow aid act dto :: rows)

/-- The fixed 8-column header literal of lines 158-162. -/
def header : List String :=
  ["Activity ID", "Category", "Start Time", "Distance (km)", "Steps",
   "Duration (min)", "Heartrate (BPM)", "Elevation Gain (m)"]

/-- Lines 156-177: if new_rows is nonempty, read the existing rows
minus their header line (next(reader, None) drops the first row) and
overwrite the file with header, new rows in fetch order, then the old
rows; otherwise touch nothing. -/
def commit (file : Option Csv) (new_rows : List (List Cell)) : Option Csv :=
  if new_rows.isEmpty then file
  else
    let old_rows : List (List String) :=
      match file with
      | none => []
      | some rows => rows.tail
    some (header :: (new_rows.map renderRow ++ old_rows))

/-- Lines 129-177: the body of fetch_and_write given the already-loaded
seen set: run the loop over the listing, then commit. An exception
escapes before any write happens. -/
def fetch_and_write (seen : List String) (detail : String → Option Dto)
    (acts : List Act) (file : Option Csv) : Except Err (Option Csv) :=
  match processLoop seen detail acts with
  | Except.error e => Except.error e
  | Except.ok rows => Except.ok (commit file rows)

/-- One whole run of main after login: load the seen set from the file,
then fetch_and_write, returning the resulting file state (or the error
that aborted the run, in which case the file is untouched). acts is the
listing returned by get_activities and detail the per-id summary
endpoint. -/
def runOnce (detail : String → Option Dto) (acts : List Act)
    (file : Option Csv) : Except Err (Option Csv) :=
  match loadSeen file with
  | Except.error e => Except.error e
  | Except.ok seen => fetch_and_write seen detail acts file

/-- The Activity ID column of the persisted store: the first cell of
every row below the header. -/
def storeIds : Option Csv → List String
  | none => []
  | some rows => rows.tail.map (fun r => r.headD "")

/-- A store shape this program itself produces: absent, or headed by
the fixed 8-column header. -/
def WellFormedStore (file : Option Csv) : Prop :=
  file = none ∨ ∃ body, file = some (header :: body)

/-- The activityId values of a listing, as the strings the script
compares against seen. -/
def listIds (acts : List Act) : List String :=
  acts.filterMap (fun a => a.activityId.map toString)

/-- The Activity ID cell of one normalized row, as the string the csv
writer puts in the first column. -/
def rowId (r : List Cell) : String := (renderRow r).headD ""

/-- Whether a run finished without raising. -/
def isOkE (e : Except Err (Option Csv)) : Bool :=
  match e with
  | Except.ok _ => true
  | Except.error _ => false

/-- The single activity of the concrete end-to-end scenario. -/
def c7act : Act :=
  ⟨some 123, some "running", some "2024-01-01 08:00:00", some 5000,
   some 1800, some 6000⟩

/-- The detail endpoint of the concrete end-to-end scenario: activity
123 answers with summaryDTO averageHR 150, totalElevationGain 42. -/
def c7detail : String → Option Dto :=
  fun aid => if aid == "123" then some ⟨some (.pint 150), none, some (.pint 42), none⟩ else none

/-- A listing entry with activityId 5, category running, 100 steps and
no other fields, used to exercise duplicate listings. -/
def cexAct : Act := ⟨some 5, some "running", none, none, none, some 100⟩

/-- A detail endpoint whose summaryDTO is always empty. -/
def cexDetail : String → Option Dto := fun _ => some ⟨none, none, none, none⟩

/-- The row the pipeline writes for cexAct against the empty detail
document. -/
def cexRow : List String := ["5", "Running", "", "0.0", "100", "0.0", "N/A", "N/A"]

/-- The store committed by running the duplicate listing against an
absent file: the same activity-5 row twice below the header. -/
def cexOut : Option Csv := some [header, cexRow, cexRow]

/-- A well-formed one-row store that already holds activity 5. -/
def wFile : Option Csv := some [header, cexRow]

/-- A listing entry whose only field is activityId 7. -/
def w8act : Act := ⟨some 7, none, none, none, none, none⟩

/-- A detail endpoint that answers only for activity 5 and raises for
every other id. -/
def w8detail : String → Option Dto :=
  fun aid => if aid == "5" then some ⟨none, none, none, none⟩ else none

lemma loadSeen_wf (file : Option Csv) (h : WellFormedStore file) :
    loadSeen file = Except.ok (storeIds file) := by
  rcases h with rfl | ⟨body, rfl⟩
  · rfl
  · have hidx : header.findIdx? (· == "Activity ID") = some 0 := rfl
    simp [loadSeen, hidx, storeIds]
    intro a _
    cases a <;> simp

lemma processLoop_all_seen (seen : List String) (detail : String → Option Dto)
    (acts : List Act)
    (h : ∀ a ∈ acts, ∃ n, a.activityId = some n ∧ toString n ∈ seen) :
    processLoop seen detail acts = Except.ok [] := by
  induction acts with
  | nil => rfl
  | cons a rest ih =>
    obtain ⟨n, hn, hmem⟩ := h a (by simp)
    have := ih (fun b hb => h b (by simp [hb]))
    simp [processLoop, hn, hmem, this]

lemma processLoop_ok_ids (seen : List String) (detail : String → Option Dto)
    (acts : List Act) (rows : List (List Cell))
    (h : processLoop seen detail acts = Except.ok rows) :
    rows.map rowId = (listIds acts).filter (· ∉ seen) := by
  induction acts generalizing rows with
  | nil =>
    simp [processLoop] at h
    subst h
    simp [listIds]
  | cons a rest ih =>
    rw [show processLoop seen detail (a :: rest) =
        (match a.activityId with
         | none => Except.error Err.keyError
         | some n =>
           let aid := toString n
           if aid ∈ seen then processLoop seen detail rest
           else
             match detail aid with
             | none => Except.error Err.httpError
             | some dto =>
               match processLoop seen detail rest with
               | Except.error e => Except.error e
               | Except.ok rows => Except.ok (mkRow aid a dto :: rows)) from rfl] at h
    cases hid : a.activityId with
    | none => rw [hid] at h; exact absurd h (by simp)
    | some n =>
      rw [hid] at h
      simp only [listIds, List.filterMap_cons, hid, Option.map_some'] at *
      by_cases hmem : toString n ∈ seen
      · rw [if_pos hmem] at h
        rw [List.filter_cons_of_neg (by simpa using hmem)]
        exact ih rows h
      · rw [if_neg hmem] at h
        cases hdet : detail (toString n) with
        | none => rw [hdet] at h; exact absurd h (by simp)
        | some dto =>
          rw [hdet] at h
          cases hrec : processLoop seen detail rest with
          | error e => rw [hrec] at h; exact absurd h (by simp)
          | ok rows' =>
            rw [hrec] at h
            have hr : rows = mkRow (toString n) a dto :: rows' := by
              simpa using h.symm
            subst hr
            rw [List.filter_cons_of_pos (by simpa using hmem)]
            simp only [List.map_cons]
            rw [ih rows' hrec]
            rfl

lemma processLoop_ok_ids_present (seen : List String) (detail : String → Option Dto)
    (acts : List Act) (rows : List (List Cell))
    (h : processLoop seen detail acts = Except.ok rows) :
    ∀ a ∈ acts, ∃ n, a.activityId = some n := by
  induction acts generalizing rows with
  | nil => simp
  | cons a rest ih =>
    rw [show processLoop seen detail (a :: rest) =
        (match a.activityId with
         | none => Except.error Err.keyError
         | some n =>
           let aid := toString n
           if aid ∈ seen then processLoop seen detail rest
           else
             match detail aid with
             | none => Except.error Err.httpError
             | some dto =>
               match processLoop seen detail rest with
               | Except.error e => Except.error e
               | Except.ok rows => Except.ok (mkRow aid a dto :: rows)) from rfl] at h
    cases hid : a.activityId with
    | none => rw [hid] at h; exact absurd h (by simp)
    | some n =>
      rw [hid] at h
      dsimp only at h
      intro b hb
      rcases List.mem_cons.mp hb with rfl | hbr
      · exact ⟨n, hid⟩
      · by_cases hmem : toString n ∈ seen
        · rw [if_pos hmem] at h
          exact ih rows h b hbr
        · rw [if_neg hmem] at h
          cases hdet : detail (toString n) with
          | none => rw [hdet] at h; exact absurd h (by simp)
          | some dto =>
            rw [hdet] at h
            cases hrec : processLoop seen detail rest with
            | error e => rw [hrec] at h; exact absurd h (by simp)
            | ok rows' => exact ih rows' hrec b hbr

lemma processLoop_total (seen : List String) (detail : String → Option Dto)
    (acts : List Act)
    (hids : ∀ a ∈ acts, ∃ n, a.activityId = some n)
    (hdet : ∀ aid, ∃ d, detail aid = some d) :
    ∃ rows, processLoop seen detail acts = Except.ok rows := by
  induction acts with
  | nil => exact ⟨[], rfl⟩
  | cons a rest ih =>
    obtain ⟨n, hn⟩ := hids a (by simp)
    obtain ⟨rows', hrec⟩ := ih (fun b hb => hids b (by simp [hb]))
    by_cases hmem : toString n ∈ seen
    · exact ⟨rows', by simp [processLoop, hn, hmem, hrec]⟩
    · obtain ⟨d, hd⟩ := hdet (toString n)
      exact ⟨mkRow (toString n) a d :: rows',
        by simp [processLoop, hn, hmem, hd, hrec]⟩

lemma processLoop_detail_fail (seen : List String) (detail : String → Option Dto)
    (pre : List Act) (a : Act) (post : List Act) (n : ℤ)
    (hpre : ∀ b ∈ pre, ∃ m, b.activityId = some m ∧
      (toString m ∈ seen ∨ detail (toString m) ≠ none))
    (ha : a.activityId = some n) (hns : toString n ∉ seen)
    (hf : detail (toString n) = none) :
    processLoop seen detail (pre ++ a :: post) = Except.error Err.httpError := by
  induction pre with
  | nil => simp [processLoop, ha, hns, hf]
  | cons b pre' ih =>
    obtain ⟨m, hm, hcase⟩ := hpre b (by simp)
    have hrec := ih (fun c hc => hpre c (by simp [hc]))
    rcases hcase with hmem | hdet
    · simp [processLoop, hm, hmem, hrec]
    · obtain ⟨d, hd⟩ := Option.ne_none_iff_exists'.mp hdet
      simp [processLoop, hm, hd, hrec]

lemma commit_wf (file : Option Csv) (rows : List (List Cell))
    (hwf : WellFormedStore file) : WellFormedStore (commit file rows) := by
  by_cases h : rows.isEmpty
  · simpa [commit, h] using hwf
  · right
    cases file with
    | none => exact ⟨rows.map renderRow ++ [], by simp [commit, h]⟩
    | some rs => exact ⟨rows.map renderRow ++ rs.tail, by simp [commit, h]⟩

lemma storeIds_commit (file : Option Csv) (rows : List (List Cell))
    (hwf : WellFormedStore file) (hne : ¬ rows.isEmpty) :
    storeIds (commit file rows) = rows.map rowId ++ storeIds file := by
  rcases hwf with rfl | ⟨body, rfl⟩
  · simp [commit, hne, storeIds, rowId, List.map_map]
  · simp [commit, hne, storeIds, rowId, List.map_map]

/-- C3: under the prepend merge strategy, committing new records [A, B]
in fetch order against an existing file whose first row is the old
header h0 and whose body is the rows X, Y rewrites the file as exactly
the fixed 8-column header once, then A and B in fetch order, then X and
Y in their original order; the old header row is dropped, never
duplicated into the body. -/
theorem C3_prepend_merge_order (A B : List Cell) (h0 X Y : List String) :
    commit (some [h0, X, Y]) [A, B] =
      some [header, renderRow A, renderRow B, X, Y] := rfl

/-- C4 is violated by the code: the falsy-or fallback treats a stored
averageHR of 0 as absent. With averageHR 0 and averageHeartRate 100 the
heart-rate cell is 100, where the claim requires 0; with averageHR 0
and no averageHeartRate it is the sentinel, where the claim requires 0. -/
theorem C4_falsy_zero_hr_eval :
    hrCell ⟨some (.pint 0), some (.pint 100), none, none⟩ = Cell.i 100 ∧
    hrCell ⟨some (.pint 0), none, none, none⟩ = Cell.s "N/A" := by
  constructor <;> rfl

/-- C5 is violated by the code: the falsy-or fallback treats a stored
totalElevationGain of 0 as absent. With totalElevationGain 0 and
elevationGain 7 the elevation cell is 7, where the claim requires 0;
with totalElevationGain 0 alone it is the sentinel, where the claim
requires 0. -/
theorem C5_falsy_zero_elevation_eval :
    egCell ⟨none, none, some (.pint 0), some (.pint 7)⟩ = Cell.i 7 ∧
    egCell ⟨none, none, some (.pint 0), none⟩ = Cell.s "N/A" := by
  constructor <;> rfl

/-- C6: the Steps column carries the upstream step count, or the
sentinel when the steps field is absent, exactly when the raw
pre-title-cased category key is "running" or "walking"; for every other
raw key it is the sentinel even when the payload contains a step
count. -/
theorem C6_steps_gating (act : Act) :
    (typeKeyOf act ∈ (["running", "walking"] : List String) →
      stepsCell act = (match act.steps with
        | some k => Cell.i k
        | none => Cell.s "N/A")) ∧
    (typeKeyOf act ∉ (["running", "walking"] : List String) →
      stepsCell act = Cell.s "N/A") := by
  constructor <;> intro h <;> simp [stepsCell, h]

/-- C6 witness: a running activity with 6000 steps keeps them, a
cycling activity with 6000 steps gets the sentinel. -/
theorem C6_steps_gating_witness :
    stepsCell ⟨some 1, some "running", none, none, none, some 6000⟩ = Cell.i 6000 ∧
    stepsCell ⟨some 2, some "cycling", none, none, none, some 6000⟩ = Cell.s "N/A" :=
  ⟨(C6_steps_gating ⟨some 1, some "running", none, none, none, some 6000⟩).1 (by decide),
   (C6_steps_gating ⟨some 2, some "cycling", none, none, none, some 6000⟩).2 (by decide)⟩

/-- C9: the two sentinels are asymmetric. When averageHR is absent,
null or zero-valued and averageHeartRate carries the value 0, the
heart-rate cell is that 0 value, not the sentinel; when
totalElevationGain is absent, null or zero-valued and elevationGain
carries the value 0, the elevation cell is the sentinel, so a literal
0 elevation is never preserved from the fallback field. -/
theorem C9_sentinel_asymmetry (d : Dto) (z w : PyNum)
    (h1 : d.averageHR = none ∨ ∃ x, d.averageHR = some x ∧ x.falsy = true)
    (h2 : d.averageHeartRate = some z) (hz : z.falsy = true)
    (h3 : d.totalElevationGain = none ∨
      ∃ x, d.totalElevationGain = some x ∧ x.falsy = true)
    (h4 : d.elevationGain = some w) (hw : w.falsy = true) :
    hrCell d = Cell.ofNum z ∧ hrCell d ≠ Cell.s "N/A" ∧
      egCell d = Cell.s "N/A" := by
  have hhr : pyOr d.averageHR d.averageHeartRate = some z := by
    rcases h1 with h1 | ⟨x, hx, hxf⟩
    · simp [pyOr, h1, h2]
    · simp [pyOr, hx, hxf, h2]
  have heg : pyOr d.totalElevationGain d.elevationGain = some w := by
    rcases h3 with h3 | ⟨x, hx, hxf⟩
    · simp [pyOr, h3, h4]
    · simp [pyOr, hx, hxf, h4]
  refine ⟨by simp [hrCell, hhr], ?_, by simp [egCell, heg, hw]⟩
  simp only [hrCell, hhr]
  cases z <;> simp [Cell.ofNum]

/-- C9 witness: averageHR 0 with averageHeartRate 0 yields the cell 0,
while totalElevationGain 0 with elevationGain 0 yields the sentinel. -/
theorem C9_sentinel_asymmetry_witness :
    hrCell ⟨some (.pint 0), some (.pint 0), some (.pfloat 0), some (.pint 0)⟩ =
      Cell.ofNum (.pint 0) ∧
    hrCell ⟨some (.pint 0), some (.pint 0), some (.pfloat 0), some (.pint 0)⟩ ≠
      Cell.s "N/A" ∧
    egCell ⟨some (.pint 0), some (.pint 0), some (.pfloat 0), some (.pint 0)⟩ =
      Cell.s "N/A" :=
  C9_sentinel_asymmetry ⟨some (.pint 0), some (.pint 0), some (.pfloat 0), some (.pint 0)⟩
    (.pint 0) (.pint 0)
    (Or.inr ⟨.pint 0, rfl, by decide⟩) rfl (by decide)
    (Or.inr ⟨.pfloat 0, rfl, by decide⟩) rfl (by decide)

/-- C7: end to end on the concrete scenario, starting from an absent
store, a listing with the single running activity 123 (distance 5000 m,
duration 1800 s, 6000 steps) and a detail document with averageHR 150
and totalElevationGain 42, the run commits exactly the expected row
under the 8-column header. -/
theorem C7_concrete_scenario :
    runOnce c7detail [c7act] none =
      Except.ok (some [header,
        ["123", "Running", "2024-01-01 08:00:00", "5.0", "6000", "30.0",
         "150", "42"]]) := by decide

/-- C1 as stated is violated by the code: a listing that repeats
activityId 5 within one response commits the same row twice, because
the seen set is not extended while the loop runs, so the persisted
store ends with two rows carrying the same Activity ID. -/
theorem C1_duplicate_listing_counterexample :
    runOnce cexDetail [cexAct, cexAct] none = Except.ok cexOut ∧
    ¬ (storeIds cexOut).Nodup := by
  exact ⟨by decide, by decide⟩

/-- C2: a run in which every listed activity carries an activityId that
is already in the seen set loaded from the file accumulates no new
rows, so the commit branch is never entered and the persisted file is
returned exactly as it was. -/
theorem C2_noop_run_unchanged (detail : String → Option Dto) (acts : List Act)
    (file : Option Csv) (seen : List String)
    (hs : loadSeen file = Except.ok seen)
    (h : ∀ a ∈ acts, ∃ n, a.activityId = some n ∧ toString n ∈ seen) :
    runOnce detail acts file = Except.ok file := by
  have hloop := processLoop_all_seen seen detail acts h
  simp [runOnce, hs, fetch_and_write, hloop, commit]

/-- C2 witness: re-listing the already-stored activity 5 leaves the
one-row store untouched. -/
theorem C2_noop_run_unchanged_witness :
    runOnce cexDetail [cexAct] wFile = Except.ok wFile :=
  C2_noop_run_unchanged cexDetail [cexAct] wFile ["5"] (by decide)
    (by
      intro a ha
      rw [List.mem_singleton] at ha
      subst ha
      exact ⟨5, rfl, by decide⟩)

/-- C8: under the prepend strategy, when the detail call for some
unseen activity raises, the whole run surfaces that error and commits
nothing, whatever rows were accumulated before the failure and
whatever activities follow: the conclusion holds for every behavior of
the detail endpoint on the activities after the failing one, so none
of them is ever consulted. -/
theorem C8_detail_failure_aborts (detail : String → Option Dto)
    (file : Option Csv) (seen : List String)
    (pre : List Act) (a : Act) (post : List Act) (n : ℤ)
    (hs : loadSeen file = Except.ok seen)
    (hpre : ∀ b ∈ pre, ∃ m, b.activityId = some m ∧
      (toString m ∈ seen ∨ detail (toString m) ≠ none))
    (ha : a.activityId = some n) (hns : toString n ∉ seen)
    (hf : detail (toString n) = none) :
    runOnce detail (pre ++ a :: post) file = Except.error Err.httpError := by
  have hloop := processLoop_detail_fail seen detail pre a post n hpre ha hns hf
  simp [runOnce, hs, fetch_and_write, hloop]

/-- C8 witness: activity 5 succeeds, the detail call for activity 7
raises, and the run aborts with the HTTP error and no file. -/
theorem C8_detail_failure_aborts_witness :
    runOnce w8detail [cexAct, w8act] none = Except.error Err.httpError :=
  C8_detail_failure_aborts w8detail none [] [cexAct] w8act [] 7 rfl
    (by
      intro b hb
      rw [List.mem_singleton] at hb
      subst hb
      exact ⟨5, rfl, Or.inr (by decide)⟩)
    rfl (by decide) (by decide)

/-- C10: among the upstream summary fields only activityId is required.
A run that finishes found an activityId on every listed activity; a
listing whose head lacks activityId aborts the whole run with the
KeyError and commits nothing; when every activity has an id and every
detail call answers, the run completes; and an activity carrying
nothing but its id normalizes with the defaults category Unknown,
empty start time, distance and duration 0 and steps sentinel. -/
theorem C10_only_activityId_required :
    (∀ (detail : String → Option Dto) (acts : List Act) (file out : Option Csv),
      runOnce detail acts file = Except.ok out →
      ∀ a ∈ acts, ∃ n, a.activityId = some n) ∧
    (∀ (seen : List String) (detail : String → Option Dto) (acts : List Act)
      (file : Option Csv),
      (∀ a ∈ acts, ∃ n, a.activityId = some n) →
      (∀ aid, ∃ d, detail aid = some d) →
      isOkE (fetch_and_write seen detail acts file) = true) ∧
    (∀ (detail : String → Option Dto) (a : Act) (rest : List Act)
      (file : Option Csv) (seen : List String),
      loadSeen file = Except.ok seen → a.activityId = none →
      runOnce detail (a :: rest) file = Except.error Err.keyError) ∧
    (∀ (n : ℤ) (dto : Dto),
      mkRow (toString n) ⟨some n, none, none, none, none, none⟩ dto =
        [Cell.s (toString n), Cell.s "Unknown", Cell.s "", Cell.f 0,
         Cell.s "N/A", Cell.f 0, hrCell dto, egCell dto]) := by
  refine ⟨?_, ?_, ?_, ?_⟩
  · intro detail acts file out hok a ha
    simp only [runOnce] at hok
    cases hls : loadSeen file with
    | error e => rw [hls] at hok; exact absurd hok (by simp)
    | ok seen =>
      rw [hls] at hok
      simp only [fetch_and_write] at hok
      cases hpl : processLoop seen detail acts with
      | error e => rw [hpl] at hok; exact absurd hok (by simp)
      | ok rows => exact processLoop_ok_ids_present seen detail acts rows hpl a ha
  · intro seen detail acts file hids hdet
    obtain ⟨rows, hrows⟩ := processLoop_total seen detail acts hids hdet
    simp [fetch_and_write, hrows, isOkE]
  · intro detail a rest file seen hs hid
    simp [runOnce, hs, fetch_and_write, processLoop, hid]
  · intro n dto
    have hcat : pyTitle (pyReplace1 "unknown" '_' ' ') = "Unknown" := by decide
    have hdist : pyRoundDiv2 0 1000 = 0 := by decide
    have hdur : pyRoundDiv2 0 60 = 0 := by decide
    simp [mkRow, typeKeyOf, stepsCell, hcat, hdist, hdur]

/-- C10 witness: the listing with the id-only activity 7 and an
always-answering detail endpoint completes, by the second part of the
theorem. -/
theorem C10_only_activityId_required_witness :
    isOkE (fetch_and_write [] cexDetail [w8act] none) = true :=
  C10_only_activityId_required.2.1 [] cexDetail [w8act] none
    (by
      intro a ha
      rw [List.mem_singleton] at ha
      subst ha
      exact ⟨7, rfl⟩)
    (fun aid => ⟨⟨none, none, none, none⟩, rfl⟩)

/-- C1 amended: uniqueness of the Activity ID column is preserved by a
run provided the upstream listing itself repeats no activityId. When
the store is absent or well formed with pairwise distinct ids and the
listing ids are pairwise distinct, a completed run leaves a store that
is again well formed with pairwise distinct ids; the original claim
also allowed the same activityId twice within one listing, which the
code does not deduplicate (the seen set is not extended during the
loop). -/
theorem C1_unique_preserved (detail : String → Option Dto) (acts : List Act)
    (file out : Option Csv)
    (hwf : WellFormedStore file)
    (hstore : (storeIds file).Nodup)
    (hlist : (listIds acts).Nodup)
    (hok : runOnce detail acts file = Except.ok out) :
    WellFormedStore out ∧ (storeIds out).Nodup := by
  have hls := loadSeen_wf file hwf
  simp only [runOnce, hls] at hok
  simp only [fetch_and_write] at hok
  cases hpl : processLoop (storeIds file) detail acts with
  | error e => rw [hpl] at hok; exact absurd hok (by simp)
  | ok rows =>
    rw [hpl] at hok
    simp only [Except.ok.injEq] at hok
    subst hok
    by_cases hne : rows.isEmpty
    · have hc : commit file rows = file := by simp [commit, hne]
      rw [hc]
      exact ⟨hwf, hstore⟩
    · refine ⟨commit_wf file rows hwf, ?_⟩
      rw [storeIds_commit file rows hwf hne]
      have hids := processLoop_ok_ids (storeIds file) detail acts rows hpl
      rw [hids]
      apply List.Nodup.append
      · exact hlist.filter _
      · exact hstore
      · intro x hx hx'
        have hmem := List.of_mem_filter hx
        simp at hmem
        exact hmem hx'

/-- C1 witness: syncing the single activity 5 into an absent store
produces a well-formed store whose id column has no duplicates. -/
theorem C1_unique_preserved_witness :
    WellFormedStore wFile ∧ (storeIds wFile).Nodup :=
  C1_unique_preserved cexDetail [cexAct] none wFile
    (Or.inl rfl) (by simp [storeIds]) (by decide) (by decide)
